import Mathlib

/-!
Shallow embedding of the time-series alignment and derivation pipeline of
the economic-data dashboard (files dashboard_app.py and data_fetcher.py).

Dates are modelled as natural numbers (any order-isomorphic encoding of
calendar dates works, since the code only compares dates for equality and
order).  Cell values are rationals; a missing cell (pandas NaN) is `none`.
A raw time series is a list of (date, value) pairs in file order.
-/

namespace Econ

/-- A raw time series as the Loader produces it: (date, optional value)
pairs in file order.  `none` models a NaN cell. -/
abbrev TimeSeries := List (Nat × Option ℚ)

/-- The dates of a series, in order. -/
abbrev seriesDates (s : TimeSeries) : List Nat := s.map Prod.fst

/-- A valid series has strictly increasing (hence unique) dates, as the
spec's TimeSeries data model requires. -/
abbrev sortedSeries (s : TimeSeries) : Prop := List.Pairwise (· < ·) (seriesDates s)

/-- Forward fill (pandas `fillna(method=pad)`), carrying `prev` into
leading missing cells.  `pct_change` applies this before differencing. -/
def ffillFrom : Option ℚ → List (Option ℚ) → List (Option ℚ)
  | _, [] => []
  | prev, v :: vs =>
    match v with
    | some x => some x :: ffillFrom (some x) vs
    | none => prev :: ffillFrom prev vs

/-- pandas `Series.pct_change(periods=12)`: forward-fill, then
element-wise `filled[i] / filled[i-12] - 1`, missing where either operand
is missing (in particular for the first 12 positions). -/
def pct_change_12 (vs : List (Option ℚ)) : List (Option ℚ) :=
  let f := ffillFrom none vs
  List.zipWith
    (fun cur prevL =>
      match cur, prevL with
      | some b, some a => some (b / a - 1)
      | _, _ => none)
    f (List.replicate 12 (none : Option ℚ) ++ f)

/-- The CPI frame after line 35 of dashboard_app.py: each row keeps its
date and CPI value and gains the column
`Inflation Rate (%) = CPI.pct_change(periods=12) * 100`.
Computed on the raw CPI series, before any alignment with the wage series. -/
def withInflation (cpi : TimeSeries) : List (Nat × Option ℚ × Option ℚ) :=
  List.zipWith (fun p i => (p.1, p.2, i)) cpi
    ((pct_change_12 (cpi.map Prod.snd)).map (Option.map (· * 100)))

/-- One row of the aligned (merged) table: columns CPI,
Inflation Rate (%), Wage, indexed by date. -/
structure Row where
  date : Nat
  cpi : Option ℚ
  inflation_rate : Option ℚ
  wage : Option ℚ
  deriving Repr, DecidableEq

/-- Index lookup in a series: the value at the first row carrying the
given date (`none` if the date is absent). -/
def lookupDate (s : TimeSeries) (d : Nat) : Option (Option ℚ) :=
  (s.find? (fun p => p.1 = d)).map Prod.snd

/-- Line 58: `pd.merge(cpi_df, wage_df, left_index=True, right_index=True,
how=inner)`.  For frames with unique indexes this keeps exactly the left
rows whose date also occurs on the right, in left (ascending-date) order,
attaching the right-hand Wage value. -/
def merge_inner (cpiT : List (Nat × Option ℚ × Option ℚ)) (wage : TimeSeries) :
    List Row :=
  cpiT.filterMap fun t =>
    match lookupDate wage t.1 with
    | some w => some ⟨t.1, t.2.1, t.2.2, w⟩
    | none => none

/-- A merged row with both source columns non-missing
(`dropna(subset=[CPI, Wage])` keeps exactly these rows). -/
def bothPresent (r : Row) : Bool := r.cpi.isSome && r.wage.isSome

/-- Lines 63-66: the base CPI is the CPI of the first row of
`merged_df.dropna(subset=[CPI, Wage])`, i.e. of the first merged row with
both CPI and Wage non-missing; `none` when no such row exists. -/
def base_cpi (merged : List Row) : Option ℚ :=
  ((merged.filter bothPresent).head?).bind Row.cpi

/-- One row of the derived table: the aligned columns plus
`Real Wage (Adjusted)`. -/
structure DRow where
  date : Nat
  cpi : Option ℚ
  inflation_rate : Option ℚ
  wage : Option ℚ
  real_wage : Option ℚ
  deriving Repr, DecidableEq

/-- Lines 63-70: when a base CPI exists, every merged row gains
`Real Wage (Adjusted) = (Wage / CPI) * base_cpi` (missing wherever Wage or
CPI is missing, by NaN propagation).  When no clean row exists the column
is never created, which downstream reads as missing everywhere. -/
def addRealWage (merged : List Row) : List DRow :=
  match base_cpi merged with
  | none => merged.map fun r => ⟨r.date, r.cpi, r.inflation_rate, r.wage, none⟩
  | some b => merged.map fun r =>
      ⟨r.date, r.cpi, r.inflation_rate, r.wage,
        match r.wage, r.cpi with
        | some w, some c => some (w / c * b)
        | _, _ => none⟩

/-- A derived row with no missing cell in any of the four columns. -/
def denseRow (r : DRow) : Bool :=
  r.cpi.isSome && r.inflation_rate.isSome && r.wage.isSome && r.real_wage.isSome

/-- Line 78: `merged_df.dropna()` — drop every row in which any column is
missing. -/
def dropna_all (t : List DRow) : List DRow := t.filter denseRow

/-- The pipeline `load_and_process_data` as a function of the two loaded
series (`none` = the corresponding CSV file is absent or failed to load).
When both series are present: add the inflation column to the CPI frame,
inner-merge with the wage frame, add the real-wage column, and drop all
rows with any missing cell.  Otherwise `merged_df` stays the initial empty
frame and the result is empty.  The function is total: no input raises. -/
def load_and_process_data (cpi? wage? : Option TimeSeries) : List DRow :=
  match cpi?, wage? with
  | some cpi, some wage =>
      dropna_all (addRealWage (merge_inner (withInflation cpi) wage))
  | _, _ => []

/-!  Loader model, for the malformed-payload policy (data_fetcher.py
lines 20-35 and dashboard_app.py lines 30-40).  A payload row is either a
structurally well-formed two-field CSV row — whose date parsed and whose
value cell is numeric or empty (NaN) — or a structurally malformed row
(wrong field count), on which `pd.read_csv` raises `ParserError` for the
whole file. -/

/-- One raw payload row as seen by `pd.read_csv`. -/
inductive RawRow where
  | entry (date : Nat) (value : Option ℚ)
  | badFields
  deriving Repr, DecidableEq

/-- Whether a payload row is structurally malformed. -/
def RawRow.isBad : RawRow → Bool
  | .badFields => true
  | .entry _ _ => false

/-- The date/value content of a well-formed payload row. -/
def RawRow.toEntry : RawRow → Option (Nat × Option ℚ)
  | .entry d v => some (d, v)
  | .badFields => none

/-- `pd.read_csv` on a payload: if any row is structurally malformed the
whole parse raises (`ParserError`), modelled as `Except.error`; otherwise
every row is returned. -/
def read_csv (payload : List RawRow) : Except String TimeSeries :=
  if payload.any RawRow.isBad then Except.error "ParserError"
  else Except.ok (payload.filterMap RawRow.toEntry)

/-- The fetch step (`fetch_cpi_data` / `fetch_wage_data`): `none` for a
network failure, and on a payload the `try/except` around `read_csv` turns
any parse exception into `None`. -/
def fetch_series (payload? : Option (List RawRow)) : Option TimeSeries :=
  match payload? with
  | none => none
  | some rows =>
    match read_csv rows with
    | Except.ok s => some s
    | Except.error _ => none

/-- A fully dense series: every row carries a value. -/
def denseSeries (l : List (Nat × ℚ)) : TimeSeries := l.map fun p => (p.1, some p.2)

/-! ### Structural lemmas about the embedded operations -/

theorem ffillFrom_map_some (prev : Option ℚ) (l : List ℚ) :
    ffillFrom prev (l.map some) = l.map some := by
  induction l generalizing prev with
  | nil => rfl
  | cons x xs ih => simp [ffillFrom, ih]

theorem length_ffillFrom (prev : Option ℚ) (vs : List (Option ℚ)) :
    (ffillFrom prev vs).length = vs.length := by
  induction vs generalizing prev with
  | nil => rfl
  | cons v vs ih => cases v <;> simp [ffillFrom, ih]

theorem length_pct_change_12 (vs : List (Option ℚ)) :
    (pct_change_12 vs).length = vs.length := by
  simp only [pct_change_12, List.length_zipWith, List.length_append,
    List.length_replicate, length_ffillFrom]
  omega

theorem length_withInflation (s : TimeSeries) :
    (withInflation s).length = s.length := by
  simp only [withInflation, List.length_zipWith, List.length_map,
    length_pct_change_12]
  omega

/-- Index-wise description of `pct_change_12` on a fully dense value list:
missing exactly at the first 12 positions, otherwise the 12-back ratio. -/
theorem pct_change_12_dense_get (l : List ℚ) (i : Nat) (hi : i < l.length) :
    (pct_change_12 (l.map some))[i]? =
      some (if h12 : 12 ≤ i then
              some (l.get ⟨i, hi⟩ / l.get ⟨i - 12, by omega⟩ - 1)
            else none) := by
  unfold pct_change_12
  rw [ffillFrom_map_some, List.getElem?_zipWith]
  by_cases h12 : 12 ≤ i
  · have h2 : (List.replicate 12 (none : Option ℚ) ++ l.map some)[i]? =
        (l.map some)[i - 12]? := by
      rw [List.getElem?_append_right (by simpa using h12)]
      simp
    rw [h2]
    have hi12 : i - 12 < l.length := by omega
    rw [List.getElem?_map, List.getElem?_map,
      List.getElem?_eq_getElem hi, List.getElem?_eq_getElem hi12]
    simp [h12]
  · have hlt : i < 12 := by omega
    have h2 : (List.replicate 12 (none : Option ℚ) ++ l.map some)[i]? =
        some none := by
      rw [List.getElem?_append_left (by simpa using hlt)]
      exact List.getElem?_replicate_of_lt hlt
    rw [h2, List.getElem?_map, List.getElem?_eq_getElem hi]
    simp [h12]

/-- Index-wise description of the CPI frame with its inflation column, for
a fully dense CPI series: row `i` keeps date and value of row `i` of the
raw series, and its inflation cell is defined iff `12 ≤ i`, in which case
it is the 12-row-back percent change of the raw series, times 100. -/
theorem withInflation_dense_get (cpi : List (Nat × ℚ)) (i : Nat)
    (hi : i < cpi.length) :
    (withInflation (denseSeries cpi))[i]? =
      some ((cpi.get ⟨i, hi⟩).1, some (cpi.get ⟨i, hi⟩).2,
        if h12 : 12 ≤ i then
          some (((cpi.get ⟨i, hi⟩).2 / (cpi.get ⟨i - 12, by omega⟩).2 - 1) * 100)
        else none) := by
  have hmap : (denseSeries cpi).map Prod.snd = (cpi.map Prod.snd).map some := by
    simp [denseSeries, List.map_map]
  have hlen : i < ((cpi.map Prod.snd).length) := by simpa using hi
  unfold withInflation
  rw [List.getElem?_zipWith, hmap, List.getElem?_map,
    pct_change_12_dense_get (cpi.map Prod.snd) i hlen]
  have hd : (denseSeries cpi)[i]? = some ((cpi.get ⟨i, hi⟩).1, some (cpi.get ⟨i, hi⟩).2) := by
    simp [denseSeries, List.getElem?_map, List.getElem?_eq_getElem hi]
  rw [hd]
  by_cases h12 : 12 ≤ i
  · simp only [h12, dif_pos]
    simp [List.getElem_map, List.get_eq_getElem]
  · simp [h12]

theorem lookupDate_mem {s : TimeSeries} {d : Nat} {v : Option ℚ}
    (h : lookupDate s d = some v) : (d, v) ∈ s := by
  unfold lookupDate at h
  cases hf : s.find? (fun p => p.1 = d) with
  | none => rw [hf] at h; simp at h
  | some p =>
    rw [hf] at h
    simp only [Option.map_some'] at h
    have hm := List.mem_of_find?_eq_some hf
    have hp := List.find?_some hf
    simp only [decide_eq_true_eq] at hp
    have hpv : p = (d, v) := by
      cases p with
      | mk a b =>
        simp only at hp h
        simp only [Option.some_inj] at h
        rw [hp, h]
    rwa [hpv] at hm

theorem lookupDate_isSome_iff {s : TimeSeries} {d : Nat} :
    (lookupDate s d).isSome ↔ d ∈ seriesDates s := by
  simp only [lookupDate, Option.isSome_map', List.find?_isSome, seriesDates,
    List.mem_map, decide_eq_true_eq]

theorem mem_merge_inner {t : List (Nat × Option ℚ × Option ℚ)}
    {w : TimeSeries} {r : Row} :
    r ∈ merge_inner t w ↔
      ∃ x wv, x ∈ t ∧ lookupDate w x.1 = some wv ∧
        r = ⟨x.1, x.2.1, x.2.2, wv⟩ := by
  unfold merge_inner
  rw [List.mem_filterMap]
  constructor
  · rintro ⟨x, hx, hfx⟩
    cases hl : lookupDate w x.1 with
    | none => rw [hl] at hfx; simp at hfx
    | some wv =>
      rw [hl] at hfx
      simp only [Option.some_inj] at hfx
      exact ⟨x, wv, hx, hl, hfx.symm⟩
  · rintro ⟨x, wv, hx, hl, hr⟩
    refine ⟨x, hx, ?_⟩
    rw [hl, hr]

theorem merge_inner_dates_sublist (t : List (Nat × Option ℚ × Option ℚ))
    (w : TimeSeries) :
    List.Sublist ((merge_inner t w).map Row.date) (t.map (fun x => x.1)) := by
  induction t with
  | nil => simp [merge_inner]
  | cons x xs ih =>
    simp only [merge_inner, List.filterMap_cons] at ih ⊢
    cases hl : lookupDate w x.1 with
    | none =>
      simp only [List.map_cons]
      exact ih.cons x.1
    | some wv =>
      simp only [List.map_cons]
      exact ih.cons₂ x.1

theorem map_fst_zipWith_triple {β : Type} (l1 : List (Nat × Option ℚ))
    (l2 : List β) (h : l1.length ≤ l2.length) :
    (List.zipWith (fun p i => (p.1, p.2, i)) l1 l2).map (fun x => x.1) =
      l1.map Prod.fst := by
  induction l1 generalizing l2 with
  | nil => simp
  | cons x xs ih =>
    cases l2 with
    | nil => simp at h
    | cons y ys =>
      simp only [List.length_cons, Nat.add_le_add_iff_right] at h
      simp only [List.zipWith_cons_cons, List.map_cons]
      rw [ih ys h]

theorem withInflation_map_fst (s : TimeSeries) :
    (withInflation s).map (fun x => x.1) = seriesDates s := by
  unfold withInflation seriesDates
  apply map_fst_zipWith_triple
  simp [length_pct_change_12]

theorem merge_inner_dates_sorted {cpi w : TimeSeries} (hc : sortedSeries cpi) :
    List.Pairwise (· < ·) ((merge_inner (withInflation cpi) w).map Row.date) := by
  have hsub := merge_inner_dates_sublist (withInflation cpi) w
  rw [withInflation_map_fst] at hsub
  exact List.Pairwise.sublist hsub hc

theorem seriesDates_denseSeries (l : List (Nat × ℚ)) :
    seriesDates (denseSeries l) = l.map Prod.fst := by
  simp [seriesDates, denseSeries, List.map_map]

/-! ### Claim theorems -/

/-- C1 (amended): the inflation rate attached to an aligned row is NOT a
12-row offset within the aligned table; it was computed on the raw price
series before the join.  For a fully dense price series, every aligned row
descends from some row `i` of the raw price series, keeps its date and
price, and carries inflation `(cpi[i] / cpi[i-12] - 1) * 100` when
`12 ≤ i` — `i` being the row position in the raw price series — and a
missing inflation cell exactly when `i < 12`. -/
theorem inflation_uses_price_series_offsets
    (cpi : List (Nat × ℚ)) (wage : TimeSeries) (r : Row)
    (hr : r ∈ merge_inner (withInflation (denseSeries cpi)) wage) :
    ∃ i p, cpi[i]? = some p ∧ r.date = p.1 ∧ r.cpi = some p.2 ∧
      r.inflation_rate =
        if 12 ≤ i then (cpi[i - 12]?).map (fun q => (p.2 / q.2 - 1) * 100)
        else none := by
  rcases mem_merge_inner.mp hr with ⟨x, wv, hx, _hl, hreq⟩
  rcases List.getElem?_of_mem hx with ⟨i, hgi⟩
  have hi : i < cpi.length := by
    rcases List.getElem?_eq_some_iff.mp hgi with ⟨h, _⟩
    have hlen : (withInflation (denseSeries cpi)).length = cpi.length := by
      rw [length_withInflation]
      simp [denseSeries]
    omega
  rw [withInflation_dense_get cpi i hi] at hgi
  have hx2 := Option.some_inj.mp hgi
  refine ⟨i, cpi.get ⟨i, hi⟩, ?_, ?_, ?_, ?_⟩
  · rw [List.getElem?_eq_getElem hi]
    rfl
  · rw [hreq, ← hx2]
  · rw [hreq, ← hx2]
  · rw [hreq, ← hx2]
    by_cases h12 : 12 ≤ i
    · have hi12 : i - 12 < cpi.length := by omega
      simp only [h12, dif_pos, if_pos]
      rw [List.getElem?_eq_getElem hi12]
      rfl
    · simp [h12]

/-- A 26-row fully dense price series, dates 0..25, values 100..125. -/
def cpiC1 : List (Nat × ℚ) :=
  [(0, 100), (1, 101), (2, 102), (3, 103), (4, 104), (5, 105), (6, 106),
   (7, 107), (8, 108), (9, 109), (10, 110), (11, 111), (12, 112), (13, 113),
   (14, 114), (15, 115), (16, 116), (17, 117), (18, 118), (19, 119),
   (20, 120), (21, 121), (22, 122), (23, 123), (24, 124), (25, 125)]

/-- A 14-row wage series covering only dates 12..25. -/
def wageC1 : TimeSeries :=
  [(12, some 20), (13, some 20), (14, some 20), (15, some 20), (16, some 20),
   (17, some 20), (18, some 20), (19, some 20), (20, some 20), (21, some 20),
   (22, some 20), (23, some 20), (24, some 20), (25, some 20)]

/-- C1 is false as stated: align the 26-row fully dense price series
`cpiC1` with the 14-row wage series `wageC1`.  The aligned table has 14
rows and a fully dense price index, so per the claim its inflation cell
would have to be missing at exactly the first 12 rows (a 12-row offset
taken inside that same table).  Instead every one of the 14 rows carries a
defined inflation value, because the code computed the offset in the raw
price series before the join. -/
theorem inflation_not_table_offset_counterexample :
    (merge_inner (withInflation (denseSeries cpiC1)) wageC1).map
        (fun r => r.inflation_rate.isSome) = List.replicate 14 true := by
  decide

/-- A 13-row fully dense price series, dates 0..12, values 100..112. -/
def cpiC1w : List (Nat × ℚ) :=
  [(0, 100), (1, 101), (2, 102), (3, 103), (4, 104), (5, 105), (6, 106),
   (7, 107), (8, 108), (9, 109), (10, 110), (11, 111), (12, 112)]

/-- A one-row wage series at date 12. -/
def wageC1w : TimeSeries := [(12, some 20)]

/-- Witness for `inflation_uses_price_series_offsets` at a concrete
input: the single aligned row of `cpiC1w` joined with `wageC1w`. -/
theorem inflation_uses_price_series_offsets_witness :
    ((⟨12, some 112, some (((112 : ℚ) / 100 - 1) * 100), some 20⟩ : Row) ∈
      merge_inner (withInflation (denseSeries cpiC1w)) wageC1w) ∧
    (∃ i p, cpiC1w[i]? = some p ∧
      (⟨12, some 112, some (((112 : ℚ) / 100 - 1) * 100), some 20⟩ : Row).date = p.1 ∧
      (⟨12, some 112, some (((112 : ℚ) / 100 - 1) * 100), some 20⟩ : Row).cpi = some p.2 ∧
      (⟨12, some 112, some (((112 : ℚ) / 100 - 1) * 100), some 20⟩ : Row).inflation_rate =
        if 12 ≤ i then (cpiC1w[i - 12]?).map (fun q => (p.2 / q.2 - 1) * 100)
        else none) := by
  have hmem : (⟨12, some 112, some (((112 : ℚ) / 100 - 1) * 100), some 20⟩ : Row) ∈
      merge_inner (withInflation (denseSeries cpiC1w)) wageC1w := by
    have he : merge_inner (withInflation (denseSeries cpiC1w)) wageC1w =
        [⟨12, some 112, some (((112 : ℚ) / 100 - 1) * 100), some 20⟩] := rfl
    rw [he]
    exact List.mem_singleton_self _
  exact ⟨hmem, inflation_uses_price_series_offsets cpiC1w wageC1w _ hmem⟩

/-- C5: the Aligner joins on exact date equality with inner-join
semantics: at most `min (len cpi) (len wage)` output rows, every output
date present in both inputs, every common date present in the output
(rows are dropped, never interpolated or fuzzily matched), and output
rows ascending by date. -/
theorem aligner_inner_join_semantics (cpi wage : TimeSeries)
    (hc : sortedSeries cpi) (hw : sortedSeries wage) :
    (merge_inner (withInflation cpi) wage).length ≤
        min cpi.length wage.length ∧
    (∀ r ∈ merge_inner (withInflation cpi) wage,
        r.date ∈ seriesDates cpi ∧ r.date ∈ seriesDates wage) ∧
    (∀ d, d ∈ seriesDates cpi → d ∈ seriesDates wage →
        d ∈ (merge_inner (withInflation cpi) wage).map Row.date) ∧
    List.Pairwise (· < ·)
        ((merge_inner (withInflation cpi) wage).map Row.date) := by
  have hdates : ∀ r ∈ merge_inner (withInflation cpi) wage,
      r.date ∈ seriesDates cpi ∧ r.date ∈ seriesDates wage := by
    intro r hr
    rcases mem_merge_inner.mp hr with ⟨x, wv, hx, hl, hreq⟩
    constructor
    · rw [hreq]
      rw [← withInflation_map_fst cpi]
      exact List.mem_map_of_mem (fun x => x.1) hx
    · rw [hreq]
      rw [← lookupDate_isSome_iff]
      rw [hl]
      rfl
  have hsorted := merge_inner_dates_sorted (w := wage) hc
  refine ⟨?_, hdates, ?_, hsorted⟩
  · have h1 : (merge_inner (withInflation cpi) wage).length ≤ cpi.length := by
      have hsub := merge_inner_dates_sublist (withInflation cpi) wage
      rw [withInflation_map_fst] at hsub
      have := hsub.length_le
      simpa [seriesDates] using this
    have h2 : (merge_inner (withInflation cpi) wage).length ≤ wage.length := by
      have hnd : ((merge_inner (withInflation cpi) wage).map Row.date).Nodup :=
        hsorted.nodup
      have hsubset : ((merge_inner (withInflation cpi) wage).map Row.date) ⊆
          seriesDates wage := by
        intro d hd
        rcases List.mem_map.mp hd with ⟨r, hr, hrd⟩
        rw [← hrd]
        exact (hdates r hr).2
      have hsp := hnd.subperm hsubset
      have := hsp.length_le
      simpa [seriesDates] using this
    exact Nat.le_min.mpr ⟨h1, h2⟩
  · intro d hdc hdw
    rw [← withInflation_map_fst cpi] at hdc
    rcases List.mem_map.mp hdc with ⟨x, hx, hxd⟩
    rcases Option.isSome_iff_exists.mp (lookupDate_isSome_iff.mpr (hxd ▸ hdw))
      with ⟨wv, hwv⟩
    have hmem : (⟨x.1, x.2.1, x.2.2, wv⟩ : Row) ∈
        merge_inner (withInflation cpi) wage :=
      mem_merge_inner.mpr ⟨x, wv, hx, hwv, rfl⟩
    have := List.mem_map_of_mem Row.date hmem
    simpa [hxd] using this


/-- `addRealWage` when a base value exists, as an explicit map. -/
theorem addRealWage_some {m : List Row} {b : ℚ} (hb : base_cpi m = some b) :
    addRealWage m = m.map fun r =>
      ⟨r.date, r.cpi, r.inflation_rate, r.wage,
        match r.wage, r.cpi with
        | some w, some c => some (w / c * b)
        | _, _ => none⟩ := by
  unfold addRealWage
  rw [hb]

/-- `addRealWage` when no base value exists, as an explicit map. -/
theorem addRealWage_none {m : List Row} (hb : base_cpi m = none) :
    addRealWage m = m.map fun r =>
      ⟨r.date, r.cpi, r.inflation_rate, r.wage, none⟩ := by
  unfold addRealWage
  rw [hb]

/-- C2: the base value used for real-wage normalization is the price
index of the chronologically earliest merged row at which both the price
index and the nominal wage are non-missing (for a sorted price series);
in the functional embedding it is computed once per table, before the
real-wage column is filled in, and never recomputed.  When no such row
exists, the real wage is missing at every row. -/
theorem base_value_selection (cpi wage : TimeSeries) (hc : sortedSeries cpi) :
    (∀ b, base_cpi (merge_inner (withInflation cpi) wage) = some b →
      ∃ r, r ∈ merge_inner (withInflation cpi) wage ∧ bothPresent r ∧
        r.cpi = some b ∧
        ∀ q, q ∈ merge_inner (withInflation cpi) wage → bothPresent q →
          r.date ≤ q.date) ∧
    (base_cpi (merge_inner (withInflation cpi) wage) = none →
      ∀ dr ∈ addRealWage (merge_inner (withInflation cpi) wage),
        dr.real_wage = none) := by
  constructor
  · intro b hb
    unfold base_cpi at hb
    cases hh : ((merge_inner (withInflation cpi) wage).filter bothPresent).head? with
    | none => rw [hh] at hb; simp at hb
    | some r =>
      rw [hh] at hb
      have hb2 : r.cpi = some b := hb
      rcases List.head?_eq_some_iff.mp hh with ⟨tl, htl⟩
      have hrmem : r ∈ (merge_inner (withInflation cpi) wage).filter bothPresent := by
        rw [htl]; exact List.mem_cons_self r tl
      have hrm := (List.mem_filter.mp hrmem).1
      have hrp := (List.mem_filter.mp hrmem).2
      refine ⟨r, hrm, hrp, hb2, ?_⟩
      intro q hq hqp
      have hqf : q ∈ (merge_inner (withInflation cpi) wage).filter bothPresent :=
        List.mem_filter.mpr ⟨hq, hqp⟩
      rw [htl] at hqf
      rcases List.mem_cons.mp hqf with h | h
      · rw [h]
      · -- the filtered list keeps ascending dates, and q is past the head
        have hs : List.Pairwise (· < ·)
            (((merge_inner (withInflation cpi) wage).filter bothPresent).map Row.date) := by
          refine List.Pairwise.sublist ?_ (merge_inner_dates_sorted (w := wage) hc)
          exact List.Sublist.map Row.date (List.filter_sublist _)
        rw [htl, List.map_cons] at hs
        have := (List.pairwise_cons.mp hs).1
        exact Nat.le_of_lt (this q.date (List.mem_map_of_mem Row.date h))
  · intro hb dr hdr
    rw [addRealWage_none hb] at hdr
    rcases List.mem_map.mp hdr with ⟨r, _, hrd⟩
    rw [← hrd]

/-- C3: with a defined base value, the real wage at every row equals
`(wage / cpi) * base` where both sources are non-missing, and is missing
where either source is missing; dates and source columns are untouched
row by row. -/
theorem real_wage_formula (m : List Row) (b : ℚ)
    (hb : base_cpi m = some b) (i : Nat) (r : Row) (hr : m[i]? = some r) :
    ∃ dr, (addRealWage m)[i]? = some dr ∧ dr.date = r.date ∧
      dr.cpi = r.cpi ∧ dr.wage = r.wage ∧
      (∀ w c, r.wage = some w → r.cpi = some c →
        dr.real_wage = some (w / c * b)) ∧
      ((r.wage = none ∨ r.cpi = none) → dr.real_wage = none) := by
  rw [addRealWage_some hb]
  refine ⟨⟨r.date, r.cpi, r.inflation_rate, r.wage,
      match r.wage, r.cpi with
      | some w, some c => some (w / c * b)
      | _, _ => none⟩, ?_, rfl, rfl, rfl, ?_, ?_⟩
  · rw [List.getElem?_map, hr]
    rfl
  · intro w c hw hcp
    simp only [hw, hcp]
  · intro h
    rcases h with h | h
    · rw [h]
    · rw [h]
      cases r.wage <;> rfl


/-- C4: the delivered table is fully dense — every row of the pipeline
output has all four columns defined, and any derived row with a missing
cell in any column is trimmed before delivery (in particular the early
rows that lack a 12-row inflation lag). -/
theorem delivered_table_dense_trim (cpi wage : TimeSeries) :
    (∀ dr ∈ load_and_process_data (some cpi) (some wage),
      dr.cpi.isSome ∧ dr.inflation_rate.isSome ∧ dr.wage.isSome ∧
        dr.real_wage.isSome) ∧
    (∀ dr ∈ addRealWage (merge_inner (withInflation cpi) wage),
      ¬(dr.cpi.isSome ∧ dr.inflation_rate.isSome ∧ dr.wage.isSome ∧
          dr.real_wage.isSome) →
      dr ∉ load_and_process_data (some cpi) (some wage)) := by
  constructor
  · intro dr hdr
    have hmem : dr ∈ (addRealWage (merge_inner (withInflation cpi) wage)).filter
        denseRow := hdr
    have hd := (List.mem_filter.mp hmem).2
    simp only [denseRow, Bool.and_eq_true] at hd
    exact ⟨hd.1.1.1, hd.1.1.2, hd.1.2, hd.2⟩
  · intro dr _ hnot hmem
    have hmem2 : dr ∈ (addRealWage (merge_inner (withInflation cpi) wage)).filter
        denseRow := hmem
    have hd := (List.mem_filter.mp hmem2).2
    simp only [denseRow, Bool.and_eq_true] at hd
    exact hnot ⟨hd.1.1.1, hd.1.1.2, hd.1.2, hd.2⟩

/-- C6: when at most one of the two series is present, the pipeline
returns the empty table; in the embedding the pipeline is a total
function, so no input raises an exception. -/
theorem absent_series_yields_empty_table (cpi? wage? : Option TimeSeries)
    (h : cpi? = none ∨ wage? = none) :
    load_and_process_data cpi? wage? = [] := by
  rcases h with h | h
  · rw [h]
    cases wage? <;> rfl
  · rw [h]
    cases cpi? <;> rfl

/-- C7 (amended): at a row with non-zero price index where the real wage
is defined, the real wage equals the nominal wage exactly when the price
index equals the base value OR the nominal wage is zero.  (The original
"exactly when price equals base" fails at zero wages.) -/
theorem real_wage_equals_nominal_iff (m : List Row) (b : ℚ)
    (hb : base_cpi m = some b) (dr : DRow) (hdr : dr ∈ addRealWage m)
    (w c : ℚ) (hw : dr.wage = some w) (hc : dr.cpi = some c) (hc0 : c ≠ 0) :
    (dr.real_wage = some w ↔ (c = b ∨ w = 0)) := by
  rw [addRealWage_some hb] at hdr
  rcases List.mem_map.mp hdr with ⟨r, _, hrd⟩
  subst hrd
  have hw2 : r.wage = some w := hw
  have hc2 : r.cpi = some c := hc
  show (match r.wage, r.cpi with
      | some w, some c => some (w / c * b)
      | _, _ => none) = some w ↔ (c = b ∨ w = 0)
  rw [hw2, hc2]
  show some (w / c * b) = some w ↔ (c = b ∨ w = 0)
  rw [Option.some_inj, div_mul_eq_mul_div, div_eq_iff hc0,
    mul_eq_mul_left_iff]
  exact or_congr eq_comm (Iff.rfl)

/-- A two-row price series whose second price differs from the base. -/
def cpiC7 : TimeSeries := [(0, some 100), (1, some 50)]

/-- A two-row wage series whose second wage is zero. -/
def wageC7 : TimeSeries := [(0, some 20), (1, some 0)]

/-- C7 is false as stated: in the derived table built from `cpiC7` and
`wageC7` the base value is 100, and the second row has real wage equal to
its nominal wage (both are 0) even though its price index 50 differs from
the base value 100 — "equals exactly when the price index matches the
base" does not hold. -/
theorem real_wage_base_iff_counterexample :
    base_cpi (merge_inner (withInflation cpiC7) wageC7) = some 100 ∧
    ∃ dr ∈ addRealWage (merge_inner (withInflation cpiC7) wageC7),
      dr.real_wage = dr.wage ∧ dr.wage = some 0 ∧ dr.cpi = some 50 ∧
      dr.cpi ≠ some (100 : ℚ) := by
  constructor
  · rfl
  · refine ⟨⟨1, some 50, none, some 0, some ((0 : ℚ) / 50 * 100)⟩, ?_, ?_, rfl, rfl, ?_⟩
    · have he : addRealWage (merge_inner (withInflation cpiC7) wageC7) =
          [⟨0, some 100, none, some 20, some ((20 : ℚ) / 100 * 100)⟩,
           ⟨1, some 50, none, some 0, some ((0 : ℚ) / 50 * 100)⟩] := rfl
      rw [he]
      exact List.mem_cons_of_mem _ (List.mem_singleton_self _)
    · norm_num
    · intro h
      have : (50 : ℚ) = 100 := Option.some_inj.mp h
      norm_num at this

/-- C8 (amended): one structurally malformed row makes the whole load
fail — `pd.read_csv` raises for the entire payload and the fetch returns
`None` — so the parseable rows are discarded rather than kept. -/
theorem malformed_row_fatal_to_load (payload : List RawRow)
    (h : payload.any RawRow.isBad = true) :
    fetch_series (some payload) = none := by
  have hred : read_csv payload = Except.error "ParserError" := by
    unfold read_csv
    rw [if_pos h]
  show (match read_csv payload with
    | Except.ok s => some s
    | Except.error _ => none) = none
  rw [hred]

/-- A payload mixing two parseable rows and one malformed row. -/
def payloadC8 : List RawRow :=
  [RawRow.entry 0 (some 100), RawRow.badFields, RawRow.entry 1 (some 101)]

/-- C8 is false as stated: on a payload with two parseable rows and one
malformed row the load returns `None` (the whole parse fails), instead of
a series holding the two parseable rows. -/
theorem malformed_row_dropped_counterexample :
    fetch_series (some payloadC8) = none ∧
    fetch_series (some payloadC8) ≠ some [(0, some 100), (1, some 101)] := by
  constructor
  · rfl
  · intro h
    exact Option.noConfusion (h.symm.trans rfl)

/-- C9: the pipeline is a pure function of its two input series — two
runs on equal inputs produce equal (bit-identical) derived tables. -/
theorem pipeline_deterministic (a b c d : Option TimeSeries)
    (h1 : a = c) (h2 : b = d) :
    load_and_process_data a b = load_and_process_data c d := by
  rw [h1, h2]

/-- Every element of a zipped triple list projects back into the left
input. -/
theorem mem_zipWith_triple {β : Type} {l1 : List (Nat × Option ℚ)}
    {l2 : List β} {x : Nat × Option ℚ × β}
    (h : x ∈ List.zipWith (fun p i => (p.1, p.2, i)) l1 l2) :
    (x.1, x.2.1) ∈ l1 := by
  induction l1 generalizing l2 with
  | nil => simp at h
  | cons a as ih =>
    cases l2 with
    | nil => simp at h
    | cons y ys =>
      simp only [List.zipWith_cons_cons, List.mem_cons] at h
      rcases h with h | h
      · rw [h]
        exact List.mem_cons_self a as
      · exact List.mem_cons_of_mem a (ih h)

/-- Every derived row descends from a merged row with the same date and
source columns. -/
theorem mem_addRealWage_src {m : List Row} {dr : DRow}
    (h : dr ∈ addRealWage m) :
    ∃ r ∈ m, dr.date = r.date ∧ dr.cpi = r.cpi ∧ dr.wage = r.wage := by
  cases hb : base_cpi m with
  | none =>
    rw [addRealWage_none hb] at h
    rcases List.mem_map.mp h with ⟨r, hr, hrd⟩
    exact ⟨r, hr, by rw [← hrd], by rw [← hrd], by rw [← hrd]⟩
  | some b =>
    rw [addRealWage_some hb] at h
    rcases List.mem_map.mp h with ⟨r, hr, hrd⟩
    exact ⟨r, hr, by rw [← hrd], by rw [← hrd], by rw [← hrd]⟩

/-- C10: the derivation stages never alter the two source columns — every
delivered row's price index and nominal wage are exactly the (date,
value) pairs held by the raw input series. -/
theorem source_columns_preserved (cpi wage : TimeSeries) (dr : DRow)
    (hdr : dr ∈ load_and_process_data (some cpi) (some wage)) :
    (dr.date, dr.cpi) ∈ cpi ∧ (dr.date, dr.wage) ∈ wage := by
  have hmem : dr ∈ (addRealWage (merge_inner (withInflation cpi) wage)).filter
      denseRow := hdr
  have h1 := (List.mem_filter.mp hmem).1
  rcases mem_addRealWage_src h1 with ⟨r, hr, hd, hcp, hwg⟩
  rcases mem_merge_inner.mp hr with ⟨x, wv, hx, hl, hreq⟩
  constructor
  · rw [hd, hcp, hreq]
    exact mem_zipWith_triple hx
  · rw [hd, hwg, hreq]
    exact lookupDate_mem hl


/-! ### Witnesses: concrete instantiations of the hypothesised theorems -/

/-- A sorted two-row price series. -/
def cpiC5 : TimeSeries := [(1, some 100), (2, some 101)]

/-- A sorted two-row wage series overlapping `cpiC5` at date 2. -/
def wageC5 : TimeSeries := [(2, some 5), (3, some 6)]

/-- Witness for `aligner_inner_join_semantics` at the concrete pair
`cpiC5`, `wageC5`. -/
theorem aligner_inner_join_semantics_witness :
    sortedSeries cpiC5 ∧ sortedSeries wageC5 ∧
    ((merge_inner (withInflation cpiC5) wageC5).length ≤
        min cpiC5.length wageC5.length ∧
    (∀ r ∈ merge_inner (withInflation cpiC5) wageC5,
        r.date ∈ seriesDates cpiC5 ∧ r.date ∈ seriesDates wageC5) ∧
    (∀ d, d ∈ seriesDates cpiC5 → d ∈ seriesDates wageC5 →
        d ∈ (merge_inner (withInflation cpiC5) wageC5).map Row.date) ∧
    List.Pairwise (· < ·)
        ((merge_inner (withInflation cpiC5) wageC5).map Row.date)) :=
  ⟨by decide, by decide,
    aligner_inner_join_semantics cpiC5 wageC5 (by decide) (by decide)⟩

/-- A sorted two-row price series for the base-value witness. -/
def cpiC2 : TimeSeries := [(0, some 50), (1, some 100)]

/-- A wage series missing its value at date 0, so the earliest clean row
is the second row. -/
def wageC2 : TimeSeries := [(0, none), (1, some 20)]

/-- Witness for `base_value_selection` at the concrete pair `cpiC2`,
`wageC2`. -/
theorem base_value_selection_witness :
    sortedSeries cpiC2 ∧
    ((∀ b, base_cpi (merge_inner (withInflation cpiC2) wageC2) = some b →
      ∃ r, r ∈ merge_inner (withInflation cpiC2) wageC2 ∧ bothPresent r ∧
        r.cpi = some b ∧
        ∀ q, q ∈ merge_inner (withInflation cpiC2) wageC2 → bothPresent q →
          r.date ≤ q.date) ∧
    (base_cpi (merge_inner (withInflation cpiC2) wageC2) = none →
      ∀ dr ∈ addRealWage (merge_inner (withInflation cpiC2) wageC2),
        dr.real_wage = none)) :=
  ⟨by decide, base_value_selection cpiC2 wageC2 (by decide)⟩

/-- A one-row merged table for the real-wage-formula witness. -/
def mC3 : List Row := [⟨0, some 100, none, some 20⟩]

/-- Witness for `real_wage_formula` at the concrete table `mC3`, base
100, row 0. -/
theorem real_wage_formula_witness :
    base_cpi mC3 = some 100 ∧ mC3[0]? = some (⟨0, some 100, none, some 20⟩ : Row) ∧
    (∃ dr, (addRealWage mC3)[0]? = some dr ∧
      dr.date = (⟨0, some 100, none, some 20⟩ : Row).date ∧
      dr.cpi = (⟨0, some 100, none, some 20⟩ : Row).cpi ∧
      dr.wage = (⟨0, some 100, none, some 20⟩ : Row).wage ∧
      (∀ w c, (⟨0, some 100, none, some 20⟩ : Row).wage = some w →
        (⟨0, some 100, none, some 20⟩ : Row).cpi = some c →
        dr.real_wage = some (w / c * 100)) ∧
      (((⟨0, some 100, none, some 20⟩ : Row).wage = none ∨
        (⟨0, some 100, none, some 20⟩ : Row).cpi = none) →
        dr.real_wage = none)) :=
  ⟨rfl, rfl, real_wage_formula mC3 100 rfl 0 _ rfl⟩

/-- A 13-row fully dense price series as loaded, dates 0..12. -/
def cpiC4 : TimeSeries :=
  [(0, some 100), (1, some 101), (2, some 102), (3, some 103), (4, some 104),
   (5, some 105), (6, some 106), (7, some 107), (8, some 108), (9, some 109),
   (10, some 110), (11, some 111), (12, some 112)]

/-- A 13-row flat wage series on the same dates. -/
def wageC4 : TimeSeries :=
  [(0, some 20), (1, some 20), (2, some 20), (3, some 20), (4, some 20),
   (5, some 20), (6, some 20), (7, some 20), (8, some 20), (9, some 20),
   (10, some 20), (11, some 20), (12, some 20)]

/-- Witness for `delivered_table_dense_trim`: the single delivered row of
the `cpiC4`/`wageC4` pipeline run is fully dense. -/
theorem delivered_table_dense_trim_witness :
    ((⟨12, some 112, some (((112 : ℚ) / 100 - 1) * 100), some 20,
        some ((20 : ℚ) / 112 * 100)⟩ : DRow) ∈
      load_and_process_data (some cpiC4) (some wageC4)) ∧
    ((⟨12, some 112, some (((112 : ℚ) / 100 - 1) * 100), some 20,
        some ((20 : ℚ) / 112 * 100)⟩ : DRow).cpi.isSome ∧
     (⟨12, some 112, some (((112 : ℚ) / 100 - 1) * 100), some 20,
        some ((20 : ℚ) / 112 * 100)⟩ : DRow).inflation_rate.isSome ∧
     (⟨12, some 112, some (((112 : ℚ) / 100 - 1) * 100), some 20,
        some ((20 : ℚ) / 112 * 100)⟩ : DRow).wage.isSome ∧
     (⟨12, some 112, some (((112 : ℚ) / 100 - 1) * 100), some 20,
        some ((20 : ℚ) / 112 * 100)⟩ : DRow).real_wage.isSome) := by
  have hmem : (⟨12, some 112, some (((112 : ℚ) / 100 - 1) * 100), some 20,
      some ((20 : ℚ) / 112 * 100)⟩ : DRow) ∈
      load_and_process_data (some cpiC4) (some wageC4) := by
    have he : load_and_process_data (some cpiC4) (some wageC4) =
        [⟨12, some 112, some (((112 : ℚ) / 100 - 1) * 100), some 20,
          some ((20 : ℚ) / 112 * 100)⟩] := rfl
    rw [he]
    exact List.mem_singleton_self _
  exact ⟨hmem, (delivered_table_dense_trim cpiC4 wageC4).1 _ hmem⟩

/-- Witness for `absent_series_yields_empty_table`: a present price
series and an absent wage series give the empty table. -/
theorem absent_series_yields_empty_table_witness :
    ((some ([(0, some 100)] : TimeSeries) = none ∨
      (none : Option TimeSeries) = none)) ∧
    load_and_process_data (some [(0, some 100)]) none = [] :=
  ⟨Or.inr rfl, absent_series_yields_empty_table (some [(0, some 100)]) none (Or.inr rfl)⟩

/-- A one-row merged table for the real-wage/nominal-wage witness. -/
def mC7 : List Row := [⟨0, some 100, none, some 20⟩]

/-- Witness for `real_wage_equals_nominal_iff` at the concrete table
`mC7`, base 100, wage 20, price 100. -/
theorem real_wage_equals_nominal_iff_witness :
    base_cpi mC7 = some 100 ∧
    ((⟨0, some 100, none, some 20, some ((20 : ℚ) / 100 * 100)⟩ : DRow) ∈
      addRealWage mC7) ∧
    (⟨0, some 100, none, some 20, some ((20 : ℚ) / 100 * 100)⟩ : DRow).wage
      = some 20 ∧
    (⟨0, some 100, none, some 20, some ((20 : ℚ) / 100 * 100)⟩ : DRow).cpi
      = some 100 ∧
    (100 : ℚ) ≠ 0 ∧
    ((⟨0, some 100, none, some 20, some ((20 : ℚ) / 100 * 100)⟩ : DRow).real_wage
        = some 20 ↔ ((100 : ℚ) = 100 ∨ (20 : ℚ) = 0)) := by
  have hne : (100 : ℚ) ≠ 0 := by simp
  have hmem : (⟨0, some 100, none, some 20, some ((20 : ℚ) / 100 * 100)⟩ : DRow) ∈
      addRealWage mC7 := by
    have he : addRealWage mC7 =
        [⟨0, some 100, none, some 20, some ((20 : ℚ) / 100 * 100)⟩] := rfl
    rw [he]
    exact List.mem_singleton_self _
  exact ⟨rfl, hmem, rfl, rfl, hne,
    real_wage_equals_nominal_iff mC7 100 rfl _ hmem 20 100 rfl rfl hne⟩

/-- Witness for `malformed_row_fatal_to_load` at the concrete payload
`payloadC8`. -/
theorem malformed_row_fatal_to_load_witness :
    payloadC8.any RawRow.isBad = true ∧
    fetch_series (some payloadC8) = none :=
  ⟨rfl, malformed_row_fatal_to_load payloadC8 rfl⟩

/-- Witness for `pipeline_deterministic` at a concrete pair of equal
inputs. -/
theorem pipeline_deterministic_witness :
    (some ([(0, some 100)] : TimeSeries) = some ([(0, some 100)] : TimeSeries)) ∧
    ((none : Option TimeSeries) = none) ∧
    load_and_process_data (some [(0, some 100)]) none =
      load_and_process_data (some [(0, some 100)]) none :=
  ⟨rfl, rfl, pipeline_deterministic (some [(0, some 100)]) none
    (some [(0, some 100)]) none rfl rfl⟩

/-- A 13-row fully dense price series, dates 0..12, for the
source-column witness. -/
def cpiC10 : TimeSeries :=
  [(0, some 100), (1, some 101), (2, some 102), (3, some 103), (4, some 104),
   (5, some 105), (6, some 106), (7, some 107), (8, some 108), (9, some 109),
   (10, some 110), (11, some 111), (12, some 112)]

/-- A 13-row flat wage series on the same dates. -/
def wageC10 : TimeSeries :=
  [(0, some 20), (1, some 20), (2, some 20), (3, some 20), (4, some 20),
   (5, some 20), (6, some 20), (7, some 20), (8, some 20), (9, some 20),
   (10, some 20), (11, some 20), (12, some 20)]

/-- Witness for `source_columns_preserved` at the single delivered row of
the `cpiC10`/`wageC10` pipeline run. -/
theorem source_columns_preserved_witness :
    ((⟨12, some 112, some (((112 : ℚ) / 100 - 1) * 100), some 20,
        some ((20 : ℚ) / 112 * 100)⟩ : DRow) ∈
      load_and_process_data (some cpiC10) (some wageC10)) ∧
    (((⟨12, some 112, some (((112 : ℚ) / 100 - 1) * 100), some 20,
        some ((20 : ℚ) / 112 * 100)⟩ : DRow).date,
      (⟨12, some 112, some (((112 : ℚ) / 100 - 1) * 100), some 20,
        some ((20 : ℚ) / 112 * 100)⟩ : DRow).cpi) ∈ cpiC10 ∧
     ((⟨12, some 112, some (((112 : ℚ) / 100 - 1) * 100), some 20,
        some ((20 : ℚ) / 112 * 100)⟩ : DRow).date,
      (⟨12, some 112, some (((112 : ℚ) / 100 - 1) * 100), some 20,
        some ((20 : ℚ) / 112 * 100)⟩ : DRow).wage) ∈ wageC10) := by
  have hmem : (⟨12, some 112, some (((112 : ℚ) / 100 - 1) * 100), some 20,
      some ((20 : ℚ) / 112 * 100)⟩ : DRow) ∈
      load_and_process_data (some cpiC10) (some wageC10) := by
    have he : load_and_process_data (some cpiC10) (some wageC10) =
        [⟨12, some 112, some (((112 : ℚ) / 100 - 1) * 100), some 20,
          some ((20 : ℚ) / 112 * 100)⟩] := rfl
    rw [he]
    exact List.mem_singleton_self _
  exact ⟨hmem, source_columns_preserved cpiC10 wageC10 _ hmem⟩

end Econ
